import Mathlib

/-!
Verification of the transcript-poller scripts against their specification.

The repository contains three variants of the same polling script:
`src/index.js`, `src/unnamed/part_000` (SDK variant) and
`src/unnamed/part_001`.  The embedding below translates the pure logic of
those scripts into Lean.  External effects are modelled as oracles:

* `fetch` is an oracle `Nat → RawResponse` giving the response to the n-th
  request attempt (1-based), mirroring a scripted server;
* `JSON.parse` is an oracle `String → Option JsVal` (a platform builtin,
  not code of this repository; `none` models a parse exception);
* token acquisition, list/detail calls and `Date.now()` are oracles in
  `PollEnv`, indexed by call count or iteration number.

JavaScript strings are modelled by `String`, its `null`/`undefined`
distinction collapses into `Option` (a field whose value is JSON `null`
behaves, for every use the scripts make of it — nullish coalescing and
truthiness — exactly like an absent field, except where noted).
-/

namespace CopilotTrans

/-- JS `String.prototype.includes`: substring containment (models
`ct.includes('application/json')` and `msg.includes('401')`). -/
def infixCheck (pat : List Char) : List Char → Bool
  | [] => pat.isEmpty
  | c :: rest => pat.isPrefixOf (c :: rest) || infixCheck pat rest

def strIncludes (s pat : String) : Bool :=
  infixCheck pat.data s.data

/-- JS `String.prototype.trim`: strip whitespace from both ends
(modelled over the character list so that it evaluates by `decide`). -/
def jsTrim (s : String) : String :=
  String.mk (((s.data.dropWhile Char.isWhitespace).reverse.dropWhile Char.isWhitespace).reverse)

/-- JS `String.prototype.slice(0, n)` (used for the 800-char snippet and
the 400-char raw-body previews). -/
def jsSlice (s : String) (n : Nat) : String :=
  String.mk (s.data.take n)

/-! ## HTTP layer: `fetchWithRetry` (src/unnamed/part_001 lines 41-64,
src/index.js lines 32-52; both have identical control flow) -/

/-- A raw HTTP response as the scripts observe it.  `retryAfter` is the
`Retry-After` header already parsed as a number of seconds (the scripts
apply JS `Number(...)` to the header string); `none` is an absent header. -/
structure RawResponse where
  status : Nat
  statusText : String
  retryAfter : Option Nat
  contentType : Option String
  body : String
deriving Repr, DecidableEq

/-- The Fetch API field `res.ok`: status in [200, 300). -/
def RawResponse.resOk (r : RawResponse) : Bool :=
  decide (200 ≤ r.status ∧ r.status < 300)

/-- Error message thrown by part_001's `fetchWithRetry`:
`HTTP ${status} ${statusText}\n${errText}`. -/
def httpErrMessage (r : RawResponse) : String :=
  "HTTP " ++ toString r.status ++ " " ++ r.statusText ++ "\n" ++ r.body

/-- Error message thrown by index.js's `fetchWithRetry`:
`HTTP ${status} ${statusText} for ${url}\n${body}` (the URL is echoed). -/
def httpErrMessageIdx (url : String) (r : RawResponse) : String :=
  "HTTP " ++ toString r.status ++ " " ++ r.statusText ++ " for " ++ url ++ "\n" ++ r.body

/-- Outcome of `fetchWithRetry`: the returned response or the thrown
error message, together with the number of `fetch` calls actually issued
and the list of back-off sleeps performed (in order). -/
inductive FetchResult where
  | success (res : RawResponse) (attempts : Nat) (sleeps : List Nat)
  | failure (message : String) (attempts : Nat) (sleeps : List Nat)
deriving Repr, DecidableEq

def FetchResult.attempts : FetchResult → Nat
  | .success _ a _ => a
  | .failure _ a _ => a

def FetchResult.isFailure : FetchResult → Bool
  | .success _ _ _ => false
  | .failure _ _ _ => true

def FetchResult.message : FetchResult → Option String
  | .success _ _ _ => none
  | .failure m _ _ => some m

/-- The wait computed on a throttled attempt:
`ra ? Number(ra) * 1000 : Math.min(32000, 1000 * 2 ** attempt)`. -/
def backoffWait (r : RawResponse) (attempt : Nat) : Nat :=
  match r.retryAfter with
  | some s => s * 1000
  | none => min 32000 (1000 * 2 ^ attempt)

/-- The `while (true)` loop of `fetchWithRetry`.  `a` is the number of
attempts already made; the loop body increments it first.  The loop
terminates within `maxAttempts` iterations because the retry branch
requires `attempt < maxAttempts`. -/
def fetchLoop (responses : Nat → RawResponse) (maxAttempts : Nat) (a : Nat)
    (sleeps : List Nat) : FetchResult :=
  let attempt := a + 1
  let res := responses attempt
  if res.resOk then
    .success res attempt sleeps.reverse
  else if h : (res.status = 429 ∨ res.status = 503) ∧ attempt < maxAttempts then
    fetchLoop responses maxAttempts attempt (backoffWait res attempt :: sleeps)
  else
    .failure (httpErrMessage res) attempt sleeps.reverse
termination_by maxAttempts - a
decreasing_by omega

/-- Top entry `fetchWithRetry(url, options, maxAttempts)`; the scripts always use
the default `maxAttempts = 5`. -/
def fetchWithRetry (responses : Nat → RawResponse) (maxAttempts : Nat) : FetchResult :=
  fetchLoop responses maxAttempts 0 []

/-! ## Response decoder: `safeJson` (src/unnamed/part_001 lines 67-88) -/

/-- JSON values, for modelling parsed response bodies. -/
inductive JsVal where
  | str (s : String)
  | num (n : Int)
  | boolean (b : Bool)
  | null
  | arr (elems : List JsVal)
  | obj (fields : List (String × JsVal))
deriving Repr

mutual

/-- Structural equality on `JsVal` (coincides with JS value equality on
primitives; the scripts only ever use primitive fragment identifiers). -/
def beqVal : JsVal → JsVal → Bool
  | .str x, .str y => x == y
  | .num x, .num y => x == y
  | .boolean x, .boolean y => x == y
  | .null, .null => true
  | .arr xs, .arr ys => beqValList xs ys
  | .obj fs, .obj gs => beqValFields fs gs
  | _, _ => false

def beqValList : List JsVal → List JsVal → Bool
  | [], [] => true
  | x :: xs, y :: ys => beqVal x y && beqValList xs ys
  | _, _ => false

def beqValFields : List (String × JsVal) → List (String × JsVal) → Bool
  | [], [] => true
  | (k, v) :: fs, (l, w) :: gs => k == l && beqVal v w && beqValFields fs gs
  | _, _ => false

end

mutual

theorem beqVal_iff : (a b : JsVal) → (beqVal a b = true ↔ a = b)
  | .str _, .str _ => by simp [beqVal]
  | .num _, .num _ => by simp [beqVal]
  | .boolean _, .boolean _ => by simp [beqVal]
  | .null, .null => by simp [beqVal]
  | .arr xs, .arr ys => by
    have h := beqValList_iff xs ys
    simp [beqVal, h]
  | .obj fs, .obj gs => by
    have h := beqValFields_iff fs gs
    simp [beqVal, h]
  | .str _, .num _ => by simp [beqVal]
  | .str _, .boolean _ => by simp [beqVal]
  | .str _, .null => by simp [beqVal]
  | .str _, .arr _ => by simp [beqVal]
  | .str _, .obj _ => by simp [beqVal]
  | .num _, .str _ => by simp [beqVal]
  | .num _, .boolean _ => by simp [beqVal]
  | .num _, .null => by simp [beqVal]
  | .num _, .arr _ => by simp [beqVal]
  | .num _, .obj _ => by simp [beqVal]
  | .boolean _, .str _ => by simp [beqVal]
  | .boolean _, .num _ => by simp [beqVal]
  | .boolean _, .null => by simp [beqVal]
  | .boolean _, .arr _ => by simp [beqVal]
  | .boolean _, .obj _ => by simp [beqVal]
  | .null, .str _ => by simp [beqVal]
  | .null, .num _ => by simp [beqVal]
  | .null, .boolean _ => by simp [beqVal]
  | .null, .arr _ => by simp [beqVal]
  | .null, .obj _ => by simp [beqVal]
  | .arr _, .str _ => by simp [beqVal]
  | .arr _, .num _ => by simp [beqVal]
  | .arr _, .boolean _ => by simp [beqVal]
  | .arr _, .null => by simp [beqVal]
  | .arr _, .obj _ => by simp [beqVal]
  | .obj _, .str _ => by simp [beqVal]
  | .obj _, .num _ => by simp [beqVal]
  | .obj _, .boolean _ => by simp [beqVal]
  | .obj _, .null => by simp [beqVal]
  | .obj _, .arr _ => by simp [beqVal]

theorem beqValList_iff : (xs ys : List JsVal) → (beqValList xs ys = true ↔ xs = ys)
  | [], [] => by simp [beqValList]
  | [], _ :: _ => by simp [beqValList]
  | _ :: _, [] => by simp [beqValList]
  | x :: xs, y :: ys => by
    have h1 := beqVal_iff x y
    have h2 := beqValList_iff xs ys
    simp [beqValList, h1, h2]

theorem beqValFields_iff :
    (fs gs : List (String × JsVal)) → (beqValFields fs gs = true ↔ fs = gs)
  | [], [] => by simp [beqValFields]
  | [], _ :: _ => by simp [beqValFields]
  | _ :: _, [] => by simp [beqValFields]
  | (k, v) :: fs, (l, w) :: gs => by
    have h1 := beqVal_iff v w
    have h2 := beqValFields_iff fs gs
    simp [beqValFields, h1, h2, and_assoc]

end

instance : DecidableEq JsVal := fun a b => decidable_of_iff _ (beqVal_iff a b)

/-- The classification produced by `safeJson`: the `{_empty:...}`,
`{_raw:...}` marker objects and a plainly parsed body. -/
inductive DecodedBody where
  | empty (status : Nat)
  | raw (text : String) (status : Nat)
  | parsed (json : JsVal)
deriving Repr, DecidableEq

/-- Computes `text.length > 800 ? text.slice(0, 800) + '…' : text`. -/
def snippetOf (text : String) : String :=
  if text.length > 800 then jsSlice text 800 ++ "…" else text

/-- The `DecodeError` message of `safeJson`. -/
def decodeErrMessage (status : Nat) (text : String) : String :=
  "Failed to parse JSON (status " ++ toString status ++ "). Body starts with:\n"
    ++ snippetOf text

/-- Decoder `safeJson(res)` (part_001 lines 67-88).  `parseJson` is the
`JSON.parse` oracle; `.error` carries the thrown message. -/
def safeJson (parseJson : String → Option JsVal) (res : RawResponse) :
    Except String DecodedBody :=
  if res.status = 204 ∨ res.status = 202 then .ok (.empty res.status)
  else
    let text := res.body
    if text = "" ∨ jsTrim text = "" then .ok (.empty res.status)
    else
      let ct := res.contentType.getD ""
      if ¬ strIncludes ct "application/json" then .ok (.raw text res.status)
      else
        match parseJson text with
        | some j => .ok (.parsed j)
        | none => .error (decodeErrMessage res.status text)

/-! ## Step lemmas for `fetchLoop` -/

theorem fetchLoop_success (responses : Nat → RawResponse) (maxA a : Nat) (sleeps : List Nat)
    (hok : (responses (a + 1)).resOk = true) :
    fetchLoop responses maxA a sleeps = .success (responses (a + 1)) (a + 1) sleeps.reverse := by
  rw [fetchLoop]
  simp [hok]

theorem fetchLoop_retry (responses : Nat → RawResponse) (maxA a : Nat) (sleeps : List Nat)
    (hok : (responses (a + 1)).resOk = false)
    (hst : (responses (a + 1)).status = 429 ∨ (responses (a + 1)).status = 503)
    (hlt : a + 1 < maxA) :
    fetchLoop responses maxA a sleeps =
      fetchLoop responses maxA (a + 1) (backoffWait (responses (a + 1)) (a + 1) :: sleeps) := by
  rw [fetchLoop]
  simp [hok, hst, hlt]

theorem fetchLoop_fail (responses : Nat → RawResponse) (maxA a : Nat) (sleeps : List Nat)
    (hok : (responses (a + 1)).resOk = false)
    (hcond : ¬ (((responses (a + 1)).status = 429 ∨ (responses (a + 1)).status = 503)
      ∧ a + 1 < maxA)) :
    fetchLoop responses maxA a sleeps =
      .failure (httpErrMessage (responses (a + 1))) (a + 1) sleeps.reverse := by
  rw [fetchLoop]
  simp only [hok, Bool.false_eq_true, if_false, dif_neg hcond]

/-- The loop only ever consults the response oracle on attempts
`a + 1 .. maxA`: two oracles agreeing there produce the same outcome. -/
theorem fetchLoop_congr (f g : Nat → RawResponse) (maxA : Nat) :
    ∀ k a sleeps, maxA - a ≤ k → a + 1 ≤ maxA →
      (∀ n, 1 ≤ n → n ≤ maxA → g n = f n) →
      fetchLoop g maxA a sleeps = fetchLoop f maxA a sleeps := by
  intro k
  induction k with
  | zero => intro a sleeps h1 h2 h3; omega
  | succ k ih =>
    intro a sleeps h1 h2 h3
    have hg : g (a + 1) = f (a + 1) := h3 (a + 1) (by omega) h2
    by_cases hok : (f (a + 1)).resOk = true
    · rw [fetchLoop_success g maxA a sleeps (by rw [hg]; exact hok),
        fetchLoop_success f maxA a sleeps hok, hg]
    · have hok' : (f (a + 1)).resOk = false := by
        simpa using hok
      by_cases hc : ((f (a + 1)).status = 429 ∨ (f (a + 1)).status = 503) ∧ a + 1 < maxA
      · rw [fetchLoop_retry g maxA a sleeps (by rw [hg]; exact hok') (by rw [hg]; exact hc.1)
          hc.2, fetchLoop_retry f maxA a sleeps hok' hc.1 hc.2, hg]
        exact ih (a + 1) _ (by omega) (by omega) h3
      · rw [fetchLoop_fail g maxA a sleeps (by rw [hg]; exact hok') (by rw [hg]; exact hc),
          fetchLoop_fail f maxA a sleeps hok' hc, hg]

/-- C2: five consecutive 429 responses exhaust the retry budget: exactly 5
attempts are made, the client then throws the `HttpError` built from the
5th response, and no 6th request is ever issued (the outcome only depends
on the responses to attempts 1..5). -/
theorem fetch_429_exhaustion (responses : Nat → RawResponse)
    (h : ∀ n, 1 ≤ n → n ≤ 5 → (responses n).status = 429) :
    (∃ sleeps, fetchWithRetry responses 5 =
      .failure (httpErrMessage (responses 5)) 5 sleeps) ∧
    (∀ g : Nat → RawResponse, (∀ n, 1 ≤ n → n ≤ 5 → g n = responses n) →
      fetchWithRetry g 5 = fetchWithRetry responses 5) := by
  have hok : ∀ n, 1 ≤ n → n ≤ 5 → (responses n).resOk = false := by
    intro n h1 h2
    simp [RawResponse.resOk, h n h1 h2]
  constructor
  · have e : fetchWithRetry responses 5 =
        .failure (httpErrMessage (responses 5)) 5
          ([backoffWait (responses 4) 4, backoffWait (responses 3) 3,
            backoffWait (responses 2) 2, backoffWait (responses 1) 1].reverse) := by
      show fetchLoop responses 5 0 [] = _
      rw [fetchLoop_retry responses 5 0 [] (hok 1 (by omega) (by omega))
          (Or.inl (h 1 (by omega) (by omega))) (by omega),
        fetchLoop_retry responses 5 1 _ (hok 2 (by omega) (by omega))
          (Or.inl (h 2 (by omega) (by omega))) (by omega),
        fetchLoop_retry responses 5 2 _ (hok 3 (by omega) (by omega))
          (Or.inl (h 3 (by omega) (by omega))) (by omega),
        fetchLoop_retry responses 5 3 _ (hok 4 (by omega) (by omega))
          (Or.inl (h 4 (by omega) (by omega))) (by omega),
        fetchLoop_fail responses 5 4 _ (hok 5 (by omega) (by omega))
          (fun hc => by omega)]
    exact ⟨_, e⟩
  · intro g hg
    exact fetchLoop_congr responses g 5 5 0 [] (by omega) (by omega) hg

/-- Concrete all-429 server used as the witness scenario for C2. -/
def all429 : Nat → RawResponse := fun _ => ⟨429, "Too Many Requests", none, none, ""⟩

theorem fetch_429_exhaustion_witness :
    (∃ sleeps, fetchWithRetry all429 5 =
      .failure (httpErrMessage (all429 5)) 5 sleeps) ∧
    (∀ g : Nat → RawResponse, (∀ n, 1 ≤ n → n ≤ 5 → g n = all429 n) →
      fetchWithRetry g 5 = fetchWithRetry all429 5) :=
  fetch_429_exhaustion all429 (fun _ _ _ => rfl)

/-- The scripted response sequence of C3:
[503 with Retry-After: 2, 503 without Retry-After, 200]. -/
def c3resp : Nat → RawResponse := fun n =>
  if n = 1 then ⟨503, "Service Unavailable", some 2, none, ""⟩
  else if n = 2 then ⟨503, "Service Unavailable", none, none, ""⟩
  else ⟨200, "OK", none, some "application/json", ""⟩

theorem c3_eval :
    fetchWithRetry c3resp 5 =
      .success ⟨200, "OK", none, some "application/json", ""⟩ 3 [2000, 4000] := by
  show fetchLoop c3resp 5 0 [] = _
  rw [fetchLoop_retry c3resp 5 0 [] (by decide) (by decide) (by omega),
    fetchLoop_retry c3resp 5 1 _ (by decide) (by decide) (by omega),
    fetchLoop_success c3resp 5 2 _ (by decide)]
  decide

/-- C3, counterexample: on [503 Retry-After 2, 503 no header, 200] the
client sleeps 2000ms and then 4000ms — not ≈2000ms twice as the claim
states: the second wait is `min(32000, 1000·2²) = 4000`. -/
theorem c3_counterexample :
    fetchWithRetry c3resp 5 =
      .success ⟨200, "OK", none, some "application/json", ""⟩ 3 [2000, 4000] ∧
    ([2000, 4000] : List Nat) ≠ [2000, 2000] :=
  ⟨c3_eval, by decide⟩

/-- C3 as amended: on that sequence the client makes exactly 3 attempts,
waiting 2000ms (the server's Retry-After of 2s) and then 4000ms
(`min(32000, 1000·2²)`), and returns the 200 response. -/
theorem c3_amended :
    fetchWithRetry c3resp 5 =
      .success ⟨200, "OK", none, some "application/json", ""⟩ 3 [2000, 4000] ∧
    2000 = 2 * 1000 ∧ 4000 = min 32000 (1000 * 2 ^ 2) :=
  ⟨c3_eval, by decide, by decide⟩

/-- C4: full classification performed by `safeJson`: 202/204 yield `Empty`
regardless of headers and body; otherwise a whitespace-only body yields
`Empty`; otherwise a non-JSON declared content type yields `Raw` with the
body text; under a JSON content type a parsable body yields `Parsed` and
an unparsable one throws a `DecodeError` whose message embeds at most the
first 800 characters of the body (plus an ellipsis when truncated). -/
theorem safeJson_classification (parseJson : String → Option JsVal) (res : RawResponse) :
    ((res.status = 202 ∨ res.status = 204) → safeJson parseJson res = .ok (.empty res.status)) ∧
    (res.status ≠ 202 → res.status ≠ 204 → jsTrim res.body = "" →
      safeJson parseJson res = .ok (.empty res.status)) ∧
    (res.status ≠ 202 → res.status ≠ 204 → jsTrim res.body ≠ "" →
      strIncludes (res.contentType.getD "") "application/json" = false →
      safeJson parseJson res = .ok (.raw res.body res.status)) ∧
    (∀ j, res.status ≠ 202 → res.status ≠ 204 → jsTrim res.body ≠ "" →
      strIncludes (res.contentType.getD "") "application/json" = true →
      parseJson res.body = some j → safeJson parseJson res = .ok (.parsed j)) ∧
    (res.status ≠ 202 → res.status ≠ 204 → jsTrim res.body ≠ "" →
      strIncludes (res.contentType.getD "") "application/json" = true →
      parseJson res.body = none →
      safeJson parseJson res = .error (decodeErrMessage res.status res.body) ∧
      (jsSlice res.body 800).length ≤ 800 ∧
      (res.body.length ≤ 800 → snippetOf res.body = res.body) ∧
      (800 < res.body.length → snippetOf res.body = jsSlice res.body 800 ++ "…")) := by
  have hbody : jsTrim res.body ≠ "" → ¬ (res.body = "" ∨ jsTrim res.body = "") := by
    intro ht hc
    rcases hc with hc | hc
    · exact ht (by rw [hc]; rfl)
    · exact ht hc
  have hslice : (jsSlice res.body 800).length ≤ 800 := by
    show (String.mk (res.body.data.take 800)).length ≤ 800
    show (res.body.data.take 800).length ≤ 800
    simp [List.length_take]
  refine ⟨?_, ?_, ?_, ?_, ?_⟩
  · intro hs
    rcases hs with hs | hs <;> simp [safeJson, hs]
  · intro h2 h4 ht
    simp [safeJson, h2, h4, ht]
  · intro h2 h4 ht hct
    simp [safeJson, h2, h4, hbody ht, hct]
  · intro j h2 h4 ht hct hp
    simp [safeJson, h2, h4, hbody ht, hct, hp]
  · intro h2 h4 ht hct hp
    refine ⟨by simp [safeJson, h2, h4, hbody ht, hct, hp], hslice, ?_, ?_⟩
    · intro hle
      simp [snippetOf, Nat.not_lt.mpr hle]
    · intro hgt
      simp [snippetOf, hgt]

/-- A concrete `JSON.parse` oracle for the C4 witness: only the body
`"A"` parses (to the string value `"a"`). -/
def parse0 : String → Option JsVal := fun s => if s = "A" then some (.str "a") else none

def r204 : RawResponse := ⟨204, "No Content", none, some "text/plain", "ignored"⟩

def rBlank : RawResponse := ⟨200, "OK", none, some "application/json", "   "⟩

def rPlain : RawResponse := ⟨200, "OK", none, some "text/plain", "hello"⟩

def rJson : RawResponse := ⟨200, "OK", none, some "application/json", "A"⟩

def rBad : RawResponse := ⟨200, "OK", none, some "application/json", "B"⟩

theorem safeJson_classification_witness :
    safeJson parse0 r204 = .ok (.empty 204) ∧
    safeJson parse0 rBlank = .ok (.empty 200) ∧
    safeJson parse0 rPlain = .ok (.raw "hello" 200) ∧
    safeJson parse0 rJson = .ok (.parsed (.str "a")) ∧
    safeJson parse0 rBad = .error (decodeErrMessage 200 "B") :=
  ⟨(safeJson_classification parse0 r204).1 (Or.inr rfl),
    (safeJson_classification parse0 rBlank).2.1 (by decide) (by decide) (by decide),
    (safeJson_classification parse0 rPlain).2.2.1 (by decide) (by decide) (by decide) (by decide),
    (safeJson_classification parse0 rJson).2.2.2.1 (.str "a") (by decide) (by decide) (by decide)
      (by decide) rfl,
    ((safeJson_classification parse0 rBad).2.2.2.2 (by decide) (by decide) (by decide) (by decide)
      rfl).1⟩

/-! ## Field access and the pretty printer
(`prettyPrintTranscript`, src/unnamed/part_001 lines 117-137) -/

/-- Plain JS property access `v[k]` on a parsed JSON value: `none` is
`undefined` (non-objects have none of these properties). -/
def jsGet : JsVal → String → Option JsVal
  | .obj fs, k => fs.lookup k
  | _, _ => none

/-- Nullish property access as used in the `??` fallback chains
(`obj?.k ?? ...`): a property whose value is JSON `null` behaves like an
absent one, because `??` skips both `null` and `undefined` and every
chain ends in a use where `null` and `undefined` coincide (truthiness,
or another `??`). -/
def getOpt (v : JsVal) (k : String) : Option JsVal :=
  match jsGet v k with
  | some .null => none
  | r => r

mutual

/-- JS template-literal stringification `${v}` of a parsed JSON value
(arrays display as their comma-joined elements, objects as
`[object Object]`). -/
def jsDisplay : JsVal → String
  | .str s => s
  | .num n => toString n
  | .boolean b => if b then "true" else "false"
  | .null => "null"
  | .arr xs => jsDisplayList xs
  | .obj _ => "[object Object]"

def jsDisplayList : List JsVal → String
  | [] => ""
  | [x] => jsDisplay x
  | x :: y :: rest => jsDisplay x ++ "," ++ jsDisplayList (y :: rest)

end

/-- JS truthiness of a parsed JSON value. -/
def jsTruthy : JsVal → Bool
  | .str s => s ≠ ""
  | .num n => n ≠ 0
  | .boolean b => b
  | .null => false
  | .arr _ => true
  | .obj _ => true

/-- Chain `obj?.id ?? obj?.transcriptId ?? obj?.metadata?.id ?? 'unknown'`. -/
def resolveId (o : JsVal) : JsVal :=
  (getOpt o "id" <|> getOpt o "transcriptId"
    <|> (getOpt o "metadata").bind (fun m => getOpt m "id")).getD (.str "unknown")

/-- Chain `obj?.createdDateTime ?? obj?.startDateTime ?? obj?.timestamp ??
obj?.metadata?.createdDateTime`. -/
def resolveCreated (o : JsVal) : Option JsVal :=
  getOpt o "createdDateTime" <|> getOpt o "startDateTime" <|> getOpt o "timestamp"
    <|> (getOpt o "metadata").bind (fun m => getOpt m "createdDateTime")

/-- Chain `obj?.language ?? obj?.locale ?? obj?.metadata?.language`. -/
def resolveLang (o : JsVal) : Option JsVal :=
  getOpt o "language" <|> getOpt o "locale"
    <|> (getOpt o "metadata").bind (fun m => getOpt m "language")

/-- Chain `obj?.speakerId ?? obj?.speaker?.id ?? obj?.participantId`. -/
def resolveSpeaker (o : JsVal) : Option JsVal :=
  getOpt o "speakerId" <|> (getOpt o "speaker").bind (fun s => getOpt s "id")
    <|> getOpt o "participantId"

/-- Chain `obj?.text ?? obj?.content ?? obj?.combinedText ??
(Array.isArray(obj?.alternatives) ? obj.alternatives[0]?.text : undefined)`. -/
def resolveText (o : JsVal) : Option JsVal :=
  getOpt o "text" <|> getOpt o "content" <|> getOpt o "combinedText"
    <|> (match jsGet o "alternatives" with
      | some (.arr xs) => xs.head?.bind (fun el => getOpt el "text")
      | _ => none)

/-- One optional header component: `v ? `label${v}` : null` followed by
the `.filter(Boolean)` (JS truthiness) of the header array. -/
def fieldPart (label : String) (v : Option JsVal) : Option String :=
  match v with
  | some x => if jsTruthy x then some (label ++ jsDisplay x) else none
  | none => none

/-- Printer `prettyPrintTranscript(obj)` (part_001 lines 117-137), as the list of
console lines it prints. -/
def prettyPrintTranscript (o : JsVal) : List String :=
  let idStr := jsDisplay (resolveId o)
  let header := String.intercalate " | "
    (([some ("• id: " ++ idStr), fieldPart "created: " (resolveCreated o),
      fieldPart "lang: " (resolveLang o),
      fieldPart "speaker: " (resolveSpeaker o)]).filterMap id)
  let line1 := if header = "" then "• id: " ++ idStr else header
  match resolveText o with
  | some t => if jsTruthy t then [line1, "  " ++ jsDisplay t] else [line1]
  | none => [line1]

/-- The input object of C6: `{transcriptId:"x", locale:"en-US", content:"hi"}`. -/
def obj6 : JsVal :=
  .obj [("transcriptId", .str "x"), ("locale", .str "en-US"), ("content", .str "hi")]

/-- C6: on `{transcriptId:"x", locale:"en-US", content:"hi"}` the summary
printer resolves id `"x"` (via the id → transcriptId → metadata.id chain),
language `"en-US"` (language → locale → metadata.language), text `"hi"`
(text → content → combinedText → alternatives[0].text), resolves no
created or speaker value, and prints exactly a header without created or
speaker fields plus the text line. -/
theorem prettyPrint_c6 :
    resolveId obj6 = .str "x" ∧
    resolveLang obj6 = some (.str "en-US") ∧
    resolveText obj6 = some (.str "hi") ∧
    resolveCreated obj6 = none ∧
    resolveSpeaker obj6 = none ∧
    prettyPrintTranscript obj6 = ["• id: x | lang: en-US", "  hi"] := by
  refine ⟨rfl, rfl, rfl, rfl, rfl, ?_⟩
  decide

/-! ## Fragment tracker (the seen-set check-and-insert inlined at
src/unnamed/part_001 lines 176-183 / src/index.js lines 119-123):
`if (!id || seen.has(id)) continue; seen.add(id);` -/

/-- The spec's `markIfNew`: membership check plus insert, returning
whether the identifier was new. -/
def markIfNew (seen : List JsVal) (id : JsVal) : Bool × List JsVal :=
  if id ∈ seen then (false, seen) else (true, id :: seen)

/-- Replaying any sequence of further `markIfNew` insertions. -/
def applyMarks (seen : List JsVal) : List JsVal → List JsVal
  | [] => seen
  | o :: ops => applyMarks (markIfNew seen o).2 ops

theorem markIfNew_fst_false (seen : List JsVal) (id : JsVal) (h : id ∈ seen) :
    (markIfNew seen id).1 = false := by
  simp [markIfNew, h]

theorem markIfNew_mem (seen : List JsVal) (id o : JsVal) (h : id ∈ seen) :
    id ∈ (markIfNew seen o).2 := by
  unfold markIfNew
  split
  · exact h
  · exact List.mem_cons_of_mem _ h

theorem applyMarks_mem (id : JsVal) :
    ∀ (ops : List JsVal) (seen : List JsVal), id ∈ seen → id ∈ applyMarks seen ops := by
  intro ops
  induction ops with
  | nil => intro seen h; exact h
  | cons o ops ih => intro seen h; exact ih _ (markIfNew_mem seen id o h)

/-- C5: a fragment identifier not yet seen is reported as new exactly
once: the first `markIfNew` returns true, and every later presentation —
after arbitrarily many other identifiers have been marked in between —
returns false, so the identifier is never treated as new again in this
run. -/
theorem markIfNew_idempotent (seen : List JsVal) (id : JsVal) (h : id ∉ seen) :
    (markIfNew seen id).1 = true ∧
    ∀ ops : List JsVal, (markIfNew (applyMarks (markIfNew seen id).2 ops) id).1 = false := by
  constructor
  · simp [markIfNew, h]
  · intro ops
    have hmem : id ∈ (markIfNew seen id).2 := by
      simp [markIfNew, h]
    have h2 : id ∈ applyMarks (markIfNew seen id).2 ops := applyMarks_mem id ops _ hmem
    exact markIfNew_fst_false _ _ h2

theorem markIfNew_idempotent_witness :
    (markIfNew [] (.str "f1")).1 = true ∧
    ∀ ops : List JsVal, (markIfNew (applyMarks (markIfNew [] (.str "f1")).2 ops) (.str "f1")).1
      = false :=
  markIfNew_idempotent [] (.str "f1") (by decide)

/-! ## The poll loop (`run`, src/unnamed/part_001 lines 140-216; the
per-item loop of src/index.js lines 119-144 is embedded separately as
`processItemsIdx`).

The loop's observable behaviour is a trace of events.  The end-of-
iteration `sleep(POLL_MS)` has no observable effect in this embedding
(time is the `nowO` oracle), so no event is recorded for it. -/

inductive Ev where
  | getTok
  | listReq (token : String)
  | detailReq (token : String) (id : JsVal)
  | print (line : String)
  | dir (v : JsVal)
  | warn (line : String)
deriving Repr, DecidableEq

/-- The mutable loop state: `token`, `tokenAcquiredAt`, `seen`, plus
`tokenCalls`, the number of `getToken()` calls made so far (the index
into the token oracle; startup acquisition is call 0 and happens before
the loop, so a state entering the loop has `tokenCalls ≥ 1` — the
theorems do not depend on that). -/
structure PollState where
  token : String
  tokenAcquiredAt : Nat
  tokenCalls : Nat
  seen : List JsVal
deriving Repr, DecidableEq

/-- The oracles for the loop's external effects:
`getTok n` is the result of the n-th `getToken()` call, `listO i` the
outcome of `listTranscripts` in iteration `i` (a thrown `HttpError` or
`DecodeError` message, or the decoded body), `detailO i id` likewise for
`getTranscript` of fragment `id`, and `nowO i` is `Date.now()` during
iteration `i`. -/
structure PollEnv where
  verbose : Bool
  getTok : Nat → Except String String
  listO : Nat → Except String DecodedBody
  detailO : Nat → JsVal → Except String DecodedBody
  nowO : Nat → Nat

/-- Chain `t?.id ?? t?.transcriptId ?? t?.metadata?.id` (run loop, line 178). -/
def itemId (t : JsVal) : Option JsVal :=
  getOpt t "id" <|> getOpt t "transcriptId"
    <|> (getOpt t "metadata").bind (fun m => getOpt m "id")

/-- Computes `Array.isArray(list?.value) ? list.value : (Array.isArray(list) ? list : [])`. -/
def extractItems (j : JsVal) : List JsVal :=
  match jsGet j "value" with
  | some (.arr xs) => xs
  | _ =>
    match j with
    | .arr xs => xs
    | _ => []

/-- Result of the per-item `for` loop: the trace, the final seen set,
and — for part_001, which has no per-item `try` — the error that escaped
it, if any (leaving the remaining items unprocessed). -/
structure ItemsOut where
  trace : List Ev
  seen : List JsVal
  err : Option String
deriving Repr, DecidableEq

/-- The `for (const t of items)` body of part_001 (lines 177-201): mark
unseen ids, print the list-item summary, fetch and print the detail.
A detail-fetch error propagates (there is no per-item catch here). -/
def processItems001 (env : PollEnv) (iter : Nat) (token : String) :
    List JsVal → List JsVal → ItemsOut
  | seen, [] => ⟨[], seen, none⟩
  | seen, t :: rest =>
    match itemId t with
    | none => processItems001 env iter token seen rest
    | some idv =>
      if jsTruthy idv = false then processItems001 env iter token seen rest
      else
        match markIfNew seen idv with
        | (false, _) => processItems001 env iter token seen rest
        | (true, seen') =>
          let pre := Ev.print "\nNEW transcript fragment:"
            :: (prettyPrintTranscript t).map Ev.print
          match env.detailO iter idv with
          | .error m => ⟨pre ++ [Ev.detailReq token idv], seen', some m⟩
          | .ok d =>
            let detEv : List Ev :=
              match d with
              | .empty _ =>
                if env.verbose then
                  [Ev.print ("[detail:" ++ jsDisplay idv ++ "] Empty body.")] else []
              | .raw r _ =>
                [Ev.print ("[detail:" ++ jsDisplay idv ++ "] Non-JSON body (first 400 chars):"),
                  Ev.print (jsSlice r 400)]
              | .parsed dj =>
                (if env.verbose then [Ev.print "~ detail payload ~", Ev.dir dj] else [])
                  ++ Ev.print "Detail snippet:" :: (prettyPrintTranscript dj).map Ev.print
            let out := processItems001 env iter token seen' rest
            ⟨pre ++ Ev.detailReq token idv :: (detEv ++ out.trace), out.seen, out.err⟩

/-- Result of the `try` block of one iteration: trace, the state as
mutated so far (the `seen` set survives a thrown error), and the
escaped error, if any. -/
structure TryOut where
  trace : List Ev
  state : PollState
  err : Option String
deriving Repr, DecidableEq

/-- The part of the `try` block after the proactive token refresh: the
list call (lines 157-201).  `tr1` is the trace accumulated so far. -/
def listAndProcess (env : PollEnv) (iter : Nat) (st1 : PollState) (tr1 : List Ev) : TryOut :=
  let tr2 := tr1 ++ [Ev.listReq st1.token]
  match env.listO iter with
  | .error m => ⟨tr2, st1, some m⟩
  | .ok (.empty _) =>
    ⟨tr2 ++ (if env.verbose then
      [Ev.print "[list] Empty body (202/204 or no data yet)."] else []), st1, none⟩
  | .ok (.raw r _) =>
    ⟨tr2 ++ [Ev.print "[list] Non-JSON body received (showing first 400 chars):",
      Ev.print (jsSlice r 400)], st1, none⟩
  | .ok (.parsed j) =>
    let trV := if env.verbose then [Ev.print "~ list payload ~", Ev.dir j] else []
    let out := processItems001 env iter st1.token st1.seen (extractItems j)
    ⟨tr2 ++ (trV ++ out.trace), { st1 with seen := out.seen }, out.err⟩

/-- The whole `try` block of one iteration (lines 150-202), starting
with the proactive refresh `if (Date.now() - tokenAcquiredAt > 50 * 60 *
1000) { token = await getToken(); tokenAcquiredAt = Date.now(); }`. -/
def tryIteration (env : PollEnv) (iter : Nat) (st : PollState) : TryOut :=
  let now := env.nowO iter
  if now - st.tokenAcquiredAt > 50 * 60 * 1000 then
    match env.getTok st.tokenCalls with
    | .error m => ⟨[Ev.getTok], { st with tokenCalls := st.tokenCalls + 1 }, some m⟩
    | .ok tok =>
      listAndProcess env iter
        { st with token := tok, tokenAcquiredAt := now, tokenCalls := st.tokenCalls + 1 }
        [Ev.getTok]
  else listAndProcess env iter st []

/-- The `catch (err)` block (lines 203-212): refresh the token when the
error message contains "401" (a thrown `getToken` failure here escapes
`run` — there is no surrounding handler), otherwise log and continue. -/
def runCatch (env : PollEnv) (iter : Nat) (st : PollState) (m : String) :
    List Ev × Except String PollState :=
  if strIncludes m "401" then
    match env.getTok st.tokenCalls with
    | .ok tok =>
      let st' : PollState :=
        { st with token := tok, tokenAcquiredAt := env.nowO iter,
                  tokenCalls := st.tokenCalls + 1 }
      ([Ev.warn "401 from Graph. Refreshing token...", Ev.getTok], .ok st')
    | .error e => ([Ev.warn "401 from Graph. Refreshing token...", Ev.getTok], .error e)
  else ([Ev.warn ("Poll error: " ++ m)], .ok st)

/-- One full iteration of the `while (true)` loop: the `try` block, then
the `catch` if an error escaped it.  An `.error` result is an error
escaping the loop itself (which rejects `run` and exits the process). -/
def runIteration (env : PollEnv) (iter : Nat) (st : PollState) :
    List Ev × Except String PollState :=
  let t := tryIteration env iter st
  match t.err with
  | none => (t.trace, .ok t.state)
  | some m =>
    let c := runCatch env iter t.state m
    (t.trace ++ c.1, c.2)

/-- Runs `fuel` iterations of the loop (the real loop is infinite; running
out of fuel just means "still running", hence the `.ok`). -/
def runLoop (env : PollEnv) (iter : Nat) (st : PollState) :
    Nat → List Ev × Except String PollState
  | 0 => ([], .ok st)
  | fuel + 1 =>
    match runIteration env iter st with
    | (tr, .ok st') =>
      let r := runLoop env (iter + 1) st' fuel
      (tr ++ r.1, r.2)
    | (tr, .error m) => (tr, .error m)

/-- The `for (const t of items)` body of index.js (lines 120-144), whose
detail fetch sits in its own `try`/`catch`: a detail error is logged as
a warning and the loop proceeds to the next item, so this function is
total (no escaping error).  `detailJ` is the outcome of
`getTranscript` = `fetchWithRetry` + `res.json()` for a given id. -/
def processItemsIdx (verbose : Bool) (detailJ : JsVal → Except String JsVal) (token : String) :
    List JsVal → List JsVal → List Ev × List JsVal
  | seen, [] => ([], seen)
  | seen, t :: rest =>
    match itemId t with
    | none => processItemsIdx verbose detailJ token seen rest
    | some idv =>
      if jsTruthy idv = false then processItemsIdx verbose detailJ token seen rest
      else
        match markIfNew seen idv with
        | (false, _) => processItemsIdx verbose detailJ token seen rest
        | (true, seen') =>
          let pre := Ev.print "\nNEW transcript fragment detected:"
            :: (prettyPrintTranscript t).map Ev.print
          let detEv : List Ev :=
            match detailJ idv with
            | .error m =>
              [Ev.warn ("Failed to fetch detail for " ++ jsDisplay idv ++ ": " ++ m)]
            | .ok d =>
              (if verbose then [Ev.print "~ detail payload ~", Ev.dir d] else [])
                ++ (if jsTruthy d then
                  Ev.print "Detail snippet:" :: (prettyPrintTranscript d).map Ev.print else [])
          let r := processItemsIdx verbose detailJ token seen' rest
          (pre ++ Ev.detailReq token idv :: (detEv ++ r.1), r.2)

/-! ## Loop lemmas -/

/-- Shape of the `try` block after the refresh step: the first event it
adds is the list request, made with the token of the state it was given,
and it never changes the token, its timestamp or the call counter. -/
theorem listAndProcess_spec (env : PollEnv) (iter : Nat) (st1 : PollState) (tr1 : List Ev) :
    (∃ rest, (listAndProcess env iter st1 tr1).trace = tr1 ++ Ev.listReq st1.token :: rest) ∧
    (listAndProcess env iter st1 tr1).state.token = st1.token ∧
    (listAndProcess env iter st1 tr1).state.tokenAcquiredAt = st1.tokenAcquiredAt ∧
    (listAndProcess env iter st1 tr1).state.tokenCalls = st1.tokenCalls := by
  unfold listAndProcess
  rcases h : env.listO iter with m | d
  · refine ⟨⟨[], ?_⟩, ?_, ?_, ?_⟩ <;> simp [h]
  · cases d with
    | empty s =>
      refine ⟨⟨if env.verbose = true then
        [Ev.print "[list] Empty body (202/204 or no data yet)."] else [], ?_⟩, ?_, ?_, ?_⟩
        <;> simp [h]
    | raw r s =>
      refine ⟨⟨[Ev.print "[list] Non-JSON body received (showing first 400 chars):",
        Ev.print (jsSlice r 400)], ?_⟩, ?_, ?_, ?_⟩ <;> simp [h]
    | parsed j =>
      refine ⟨⟨(if env.verbose = true then [Ev.print "~ list payload ~", Ev.dir j] else [])
        ++ (processItems001 env iter st1.token st1.seen (extractItems j)).trace, ?_⟩,
        ?_, ?_, ?_⟩ <;> simp [h]

/-- C8: the credential age check runs at the top of each iteration,
before any HTTP call.  If more than 50 minutes have elapsed and the
re-acquisition succeeds, the iteration's trace begins with exactly one
`getTok` followed immediately by the list request carrying the fresh
token, and the acquisition timestamp is reset to the current time; if
the credential is fresh, the trace begins directly with the list request
under the old token; if a stale credential fails to re-acquire, no HTTP
request happens at all in the `try` block. -/
theorem token_age_check (env : PollEnv) (iter : Nat) (st : PollState) :
    (∀ tok, env.nowO iter - st.tokenAcquiredAt > 50 * 60 * 1000 →
      env.getTok st.tokenCalls = .ok tok →
      (∃ rest, (tryIteration env iter st).trace = Ev.getTok :: Ev.listReq tok :: rest) ∧
      (tryIteration env iter st).state.token = tok ∧
      (tryIteration env iter st).state.tokenAcquiredAt = env.nowO iter) ∧
    (¬ (env.nowO iter - st.tokenAcquiredAt > 50 * 60 * 1000) →
      (∃ rest, (tryIteration env iter st).trace = Ev.listReq st.token :: rest) ∧
      (tryIteration env iter st).state.token = st.token ∧
      (tryIteration env iter st).state.tokenAcquiredAt = st.tokenAcquiredAt) ∧
    (∀ m, env.nowO iter - st.tokenAcquiredAt > 50 * 60 * 1000 →
      env.getTok st.tokenCalls = .error m →
      (tryIteration env iter st).trace = [Ev.getTok] ∧
      (tryIteration env iter st).err = some m) := by
  refine ⟨?_, ?_, ?_⟩
  · intro tok hstale hok
    unfold tryIteration
    simp only [if_pos hstale, hok]
    obtain ⟨⟨rest, hr⟩, h1, h2, h3⟩ := listAndProcess_spec env iter
      ⟨tok, env.nowO iter, st.tokenCalls + 1, st.seen⟩ [Ev.getTok]
    exact ⟨⟨rest, hr⟩, h1, h2⟩
  · intro hfresh
    unfold tryIteration
    simp only [if_neg hfresh]
    obtain ⟨⟨rest, hr⟩, h1, h2, h3⟩ := listAndProcess_spec env iter st []
    exact ⟨⟨rest, hr⟩, h1, h2⟩
  · intro m hstale herr
    unfold tryIteration
    simp only [if_pos hstale, herr]
    exact ⟨by simp, by simp⟩

/-- The scenario of the C8 witness: fifty minutes (plus change) have
elapsed, and token re-acquisition succeeds. -/
def envC8 : PollEnv where
  verbose := false
  getTok := fun _ => .ok "fresh"
  listO := fun _ => .ok (.empty 204)
  detailO := fun _ _ => .ok (.empty 204)
  nowO := fun _ => 4000000

def stC8 : PollState := ⟨"old", 0, 1, []⟩

theorem token_age_check_witness :
    (∃ rest, (tryIteration envC8 0 stC8).trace = Ev.getTok :: Ev.listReq "fresh" :: rest) ∧
    (tryIteration envC8 0 stC8).state.token = "fresh" ∧
    (tryIteration envC8 0 stC8).state.tokenAcquiredAt = envC8.nowO 0 :=
  (token_age_check envC8 0 stC8).1 "fresh" (by decide) rfl

/-- Correctness of `strIncludes`: it is "contains the substring anywhere". -/
theorem infixCheck_iff (pat : List Char) : ∀ l, infixCheck pat l = true ↔ pat <:+: l := by
  intro l
  induction l with
  | nil => simp [infixCheck, List.isEmpty_iff, List.infix_nil]
  | cons c rest ih => simp [infixCheck, ih, List.infix_cons_iff, List.isPrefixOf_iff_prefix]

theorem strIncludes_iff (s pat : String) : strIncludes s pat = true ↔ pat.data <:+: s.data :=
  infixCheck_iff pat.data s.data

/-- C9: when an error escapes the `try` block of an iteration, the
`catch` handler runs on it, and it attempts a credential refresh exactly
when the error message contains the substring "401" anywhere — a purely
textual test, satisfied equally by a 401 status line, by "401" occurring
only inside an echoed response body or URL, and by no other wording of
an authentication failure. -/
theorem refresh_iff_401 (env : PollEnv) (iter : Nat) (st : PollState) (m : String) :
    ((tryIteration env iter st).err = some m →
      (runIteration env iter st).1 =
        (tryIteration env iter st).trace
          ++ (runCatch env iter (tryIteration env iter st).state m).1 ∧
      (runIteration env iter st).2 =
        (runCatch env iter (tryIteration env iter st).state m).2) ∧
    ((Ev.getTok ∈ (runCatch env iter st m).1) ↔ strIncludes m "401" = true) ∧
    (strIncludes m "401" = true ↔ "401".data <:+: m.data) := by
  refine ⟨?_, ?_, strIncludes_iff m "401"⟩
  · intro h
    simp only [runIteration, h]
    exact ⟨by simp, by simp⟩
  · unfold runCatch
    by_cases hc : strIncludes m "401"
    · rcases h : env.getTok st.tokenCalls with e | tok <;> simp [hc, h]
    · simp only [Bool.not_eq_true] at hc
      simp [hc]

/-- Environment and state for the C9 witness (their content is
irrelevant to the catch handler's refresh decision). -/
def envC9 : PollEnv where
  verbose := false
  getTok := fun _ => .ok "t"
  listO := fun _ => .ok (.empty 204)
  detailO := fun _ _ => .ok (.empty 204)
  nowO := fun _ => 0

def stC9 : PollState := ⟨"tok", 0, 1, []⟩

theorem refresh_iff_401_witness :
    Ev.getTok ∈ (runCatch envC9 0 stC9
      (httpErrMessage ⟨500, "Internal Server Error", none, none,
        "upstream auth rejected call: code 401"⟩)).1 ∧
    Ev.getTok ∈ (runCatch envC9 0 stC9
      (httpErrMessageIdx "https://graph.example/feed/401check/transcripts"
        ⟨500, "Internal Server Error", none, none, ""⟩)).1 ∧
    Ev.getTok ∉ (runCatch envC9 0 stC9 "HTTP 500 Unauthorized\nauth failure").1 :=
  ⟨((refresh_iff_401 envC9 0 stC9 _).2.1).mpr (by decide),
    ((refresh_iff_401 envC9 0 stC9 _).2.1).mpr (by decide),
    fun h => by
      have := ((refresh_iff_401 envC9 0 stC9 _).2.1).mp h
      exact absurd this (by decide)⟩

/-- When every token re-exchange succeeds, no iteration outcome is ever
an escaping error. -/
theorem runIteration_ok_of_getTok_ok (env : PollEnv) (iter : Nat) (st : PollState)
    (hok : ∀ n, ∃ t, env.getTok n = .ok t) :
    ∃ st', (runIteration env iter st).2 = .ok st' := by
  rcases h : (tryIteration env iter st).err with _ | m
  · exact ⟨(tryIteration env iter st).state, by simp [runIteration, h]⟩
  · by_cases hc : strIncludes m "401"
    · obtain ⟨t, ht⟩ := hok (tryIteration env iter st).state.tokenCalls
      exact ⟨⟨t, env.nowO iter, (tryIteration env iter st).state.tokenCalls + 1,
        (tryIteration env iter st).state.seen⟩, by simp [runIteration, h, runCatch, hc, ht]⟩
    · simp only [Bool.not_eq_true] at hc
      exact ⟨(tryIteration env iter st).state, by simp [runIteration, h, runCatch, hc]⟩

/-- When every token re-exchange succeeds the loop runs any number of
iterations without terminating. -/
theorem runLoop_ok_of_getTok_ok (env : PollEnv) (hok : ∀ n, ∃ t, env.getTok n = .ok t) :
    ∀ fuel iter st, ∃ st', (runLoop env iter st fuel).2 = .ok st' := by
  intro fuel
  induction fuel with
  | zero => intro iter st; exact ⟨st, rfl⟩
  | succ fuel ih =>
    intro iter st
    obtain ⟨st1, h1⟩ := runIteration_ok_of_getTok_ok env iter st hok
    rcases hr : runIteration env iter st with ⟨tr, r⟩
    rw [hr] at h1
    simp only at h1
    subst h1
    obtain ⟨st2, h2⟩ := ih (iter + 1) st1
    exact ⟨st2, by simp [runLoop, hr, h2]⟩

/-- The scenario refuting C7: after a healthy startup, the list call
fails with a 401 and the subsequent reactive token re-exchange throws;
that error escapes the loop (in the script, it rejects `run()` and the
process exits non-zero). -/
def envC7 : PollEnv where
  verbose := false
  getTok := fun _ => .error "Failed to get app token"
  listO := fun _ => .error (httpErrMessage ⟨401, "Unauthorized", none, none, ""⟩)
  detailO := fun _ _ => .ok (.empty 200)
  nowO := fun _ => 0

def stC7 : PollState := ⟨"tok0", 0, 1, []⟩

/-- C7, counterexample: an error arising inside a poll iteration (a 401
from the list call) leads the catch handler to re-exchange the
credential; when that re-exchange fails, the error escapes and the loop
terminates — so a failed credential re-exchange after startup is fatal,
contrary to the claim. -/
theorem c7_counterexample :
    (runLoop envC7 0 stC7 2).2 = .error "Failed to get app token" := by
  rfl

/-- C7 as amended: an iteration-level error never terminates the loop
provided the credential re-exchange succeeds — an error whose text
contains "401" triggers exactly one refresh-and-continue, any other
error is logged and the loop continues — but when the reactive
re-exchange itself throws, that error escapes the loop and is fatal. -/
theorem loop_error_policy (env : PollEnv) (iter : Nat) (st : PollState) (m : String)
    (fuel : Nat) :
    ((∀ n, ∃ t, env.getTok n = .ok t) →
      ∃ st', (runLoop env iter st fuel).2 = .ok st') ∧
    (∀ tok, strIncludes m "401" = true → env.getTok st.tokenCalls = .ok tok →
      runCatch env iter st m =
        ([Ev.warn "401 from Graph. Refreshing token...", Ev.getTok],
          .ok ⟨tok, env.nowO iter, st.tokenCalls + 1, st.seen⟩)) ∧
    (strIncludes m "401" = false →
      runCatch env iter st m = ([Ev.warn ("Poll error: " ++ m)], .ok st)) ∧
    (∀ e, strIncludes m "401" = true → env.getTok st.tokenCalls = .error e →
      (runCatch env iter st m).2 = .error e) := by
  refine ⟨fun hok => runLoop_ok_of_getTok_ok env hok fuel iter st, ?_, ?_, ?_⟩
  · intro tok h401 htok
    simp [runCatch, h401, htok]
  · intro h401
    simp [runCatch, h401]
  · intro e h401 herr
    simp [runCatch, h401, herr]

/-- Healthy-refresh scenario for the C7 witness. -/
def envC7w : PollEnv where
  verbose := false
  getTok := fun _ => .ok "tw"
  listO := fun _ => .error "HTTP 503 Service Unavailable\nretry later"
  detailO := fun _ _ => .ok (.empty 200)
  nowO := fun _ => 7

def stC7w : PollState := ⟨"t0", 0, 1, []⟩

/-- Failing-refresh scenario for the C7 witness. -/
def envC7f : PollEnv where
  verbose := false
  getTok := fun _ => .error "no token"
  listO := fun _ => .ok (.empty 204)
  detailO := fun _ _ => .ok (.empty 204)
  nowO := fun _ => 0

theorem loop_error_policy_witness :
    (∃ st', (runLoop envC7w 0 stC7w 3).2 = .ok st') ∧
    runCatch envC7w 0 stC7w "HTTP 401 Unauthorized\nx" =
      ([Ev.warn "401 from Graph. Refreshing token...", Ev.getTok], .ok ⟨"tw", 7, 2, []⟩) ∧
    runCatch envC7w 0 stC7w "HTTP 503 Service Unavailable\nretry later" =
      ([Ev.warn ("Poll error: " ++ "HTTP 503 Service Unavailable\nretry later")], .ok stC7w) ∧
    (runCatch envC7f 0 stC7w "HTTP 401 Unauthorized\nx").2 = .error "no token" :=
  ⟨(loop_error_policy envC7w 0 stC7w "x" 3).1 (fun _ => ⟨"tw", rfl⟩),
    (loop_error_policy envC7w 0 stC7w "HTTP 401 Unauthorized\nx" 3).2.1 "tw" (by decide) rfl,
    (loop_error_policy envC7w 0 stC7w "HTTP 503 Service Unavailable\nretry later" 3).2.2.1
      (by decide),
    (loop_error_policy envC7f 0 stC7w "HTTP 401 Unauthorized\nx" 3).2.2.2 "no token"
      (by decide) rfl⟩

/-! ## Detail-fetch counting (shared by C1 and C10) -/

/-- Is this event a detail request for fragment `idv` (with any token)? -/
def isDetailFor (idv : JsVal) : Ev → Bool
  | .detailReq _ i => i = idv
  | _ => false

/-- Number of detail requests for fragment `idv` in a trace. -/
def countDetail (idv : JsVal) (tr : List Ev) : Nat :=
  (tr.filter (isDetailFor idv)).length

theorem countDetail_append (idv : JsVal) (a b : List Ev) :
    countDetail idv (a ++ b) = countDetail idv a + countDetail idv b := by
  simp [countDetail, List.filter_append]

theorem countDetail_eq_zero (idv : JsVal) (tr : List Ev)
    (h : ∀ e ∈ tr, isDetailFor idv e = false) : countDetail idv tr = 0 := by
  simp only [countDetail, List.length_eq_zero]
  exact List.filter_eq_nil_iff.mpr (by intro e he; simp [h e he])

theorem countDetail_print_map (idv : JsVal) (ls : List String) :
    countDetail idv (ls.map Ev.print) = 0 :=
  countDetail_eq_zero _ _ (by
    intro e he
    obtain ⟨s, _, rfl⟩ := List.mem_map.mp he
    rfl)

/-! ## C1: isolation of a single fragment's detail-fetch error -/

def objA : JsVal := .obj [("id", .str "a")]

def objB : JsVal := .obj [("id", .str "b")]

/-- Scenario refuting C1 on part_001: two new fragments `a`, `b`; the
detail fetch for `a` throws. -/
def envC1 : PollEnv where
  verbose := false
  getTok := fun _ => .ok "t1"
  listO := fun _ => .ok (.parsed (.obj [("value", .arr [objA, objB])]))
  detailO := fun _ idv => if idv = .str "a" then .error "boom" else .ok (.parsed (.obj []))
  nowO := fun _ => 0

def stC1 : PollState := ⟨"tok0", 0, 1, []⟩

/-- C1, counterexample: in part_001's loop the error from fragment `a`'s
detail fetch aborts the iteration — sibling `b` is neither summarised
nor detail-fetched nor marked seen in that iteration (the error is
caught at the loop level and logged, so the loop itself continues). -/
theorem c1_counterexample :
    (runIteration envC1 0 stC1).2 = .ok ⟨"tok0", 0, 1, [.str "a"]⟩ ∧
    countDetail (.str "a") (runIteration envC1 0 stC1).1 = 1 ∧
    countDetail (.str "b") (runIteration envC1 0 stC1).1 = 0 ∧
    Ev.print "• id: b" ∉ (runIteration envC1 0 stC1).1 ∧
    Ev.warn ("Poll error: " ++ "boom") ∈ (runIteration envC1 0 stC1).1 := by
  refine ⟨rfl, by decide, by decide, by decide, by decide⟩

/-- Appending behaviour of index.js's per-item loop: later items are
always processed after earlier ones, whatever happened there. -/
theorem processItemsIdx_append (verbose : Bool) (detailJ : JsVal → Except String JsVal)
    (token : String) :
    ∀ (xs ys seen : List JsVal),
      processItemsIdx verbose detailJ token seen (xs ++ ys) =
        ((processItemsIdx verbose detailJ token seen xs).1
          ++ (processItemsIdx verbose detailJ token
            (processItemsIdx verbose detailJ token seen xs).2 ys).1,
          (processItemsIdx verbose detailJ token
            (processItemsIdx verbose detailJ token seen xs).2 ys).2) := by
  intro xs
  induction xs with
  | nil => intro ys seen; simp [processItemsIdx]
  | cons t rest ih =>
    intro ys seen
    simp only [List.cons_append, processItemsIdx]
    rcases h : itemId t with _ | idv
    · simpa using ih ys seen
    · by_cases ht : jsTruthy idv = false
      · simp only [if_pos ht]
        simpa using ih ys seen
      · simp only [if_neg ht]
        rcases hm : markIfNew seen idv with ⟨b, s2⟩
        cases b
        · simpa using ih ys seen
        · simp only [List.append_eq]
          rw [ih ys s2]
          simp [List.append_assoc]

/-- C1 as amended: a single fragment's detail-fetch error never aborts
the loop, but only index.js catches it per fragment.  In index.js the
error is logged as a warning and the remaining sibling fragments of the
same iteration are still processed; in part_001 the error propagates to
the iteration-level handler (so remaining siblings wait for the next
iteration), where it is caught and the loop continues. -/
theorem detail_error_isolation (verbose : Bool) (detailJ : JsVal → Except String JsVal)
    (token : String) (xs ys seen : List JsVal) (env : PollEnv) (iter : Nat) (st : PollState) :
    (processItemsIdx verbose detailJ token seen (xs ++ ys) =
      ((processItemsIdx verbose detailJ token seen xs).1
        ++ (processItemsIdx verbose detailJ token
          (processItemsIdx verbose detailJ token seen xs).2 ys).1,
        (processItemsIdx verbose detailJ token
          (processItemsIdx verbose detailJ token seen xs).2 ys).2)) ∧
    (∀ idv m t, itemId t = some idv → jsTruthy idv = true → idv ∉ seen →
      detailJ idv = .error m →
      (processItemsIdx verbose detailJ token seen (t :: ys)).1 =
        (Ev.print "\nNEW transcript fragment detected:"
            :: (prettyPrintTranscript t).map Ev.print)
          ++ Ev.detailReq token idv
          :: Ev.warn ("Failed to fetch detail for " ++ jsDisplay idv ++ ": " ++ m)
          :: (processItemsIdx verbose detailJ token (idv :: seen) ys).1) ∧
    ((∀ n, ∃ tk, env.getTok n = .ok tk) → ∃ st', (runIteration env iter st).2 = .ok st') := by
  refine ⟨processItemsIdx_append verbose detailJ token xs ys seen, ?_,
    fun hok => runIteration_ok_of_getTok_ok env iter st hok⟩
  intro idv m t hid htr hnotin herr
  have hm : markIfNew seen idv = (true, idv :: seen) := by
    simp [markIfNew, hnotin]
  simp [processItemsIdx, hid, htr, hm, herr]

/-- Concrete detail oracle for the C1 witness: fetching `a` throws. -/
def detailJw : JsVal → Except String JsVal :=
  fun idv => if idv = .str "a" then .error "boom" else .ok (.obj [("id", idv)])

theorem detail_error_isolation_witness :
    (processItemsIdx false detailJw "tok" [] ([objA] ++ [objB]) =
      ((processItemsIdx false detailJw "tok" [] [objA]).1
        ++ (processItemsIdx false detailJw "tok"
          (processItemsIdx false detailJw "tok" [] [objA]).2 [objB]).1,
        (processItemsIdx false detailJw "tok"
          (processItemsIdx false detailJw "tok" [] [objA]).2 [objB]).2)) ∧
    ((processItemsIdx false detailJw "tok" [] (objA :: [objB])).1 =
      (Ev.print "\nNEW transcript fragment detected:"
          :: (prettyPrintTranscript objA).map Ev.print)
        ++ Ev.detailReq "tok" (.str "a")
        :: Ev.warn "Failed to fetch detail for a: boom"
        :: (processItemsIdx false detailJw "tok" [.str "a"] [objB]).1) ∧
    (∃ st', (runIteration envC1 0 stC1).2 = .ok st') :=
  ⟨(detail_error_isolation false detailJw "tok" [objA] [objB] [] envC1 0 stC1).1,
    (detail_error_isolation false detailJw "tok" [objA] [objB] [] envC1 0 stC1).2.1
      (.str "a") "boom" objA rfl rfl (by decide) rfl,
    (detail_error_isolation false detailJw "tok" [objA] [objB] [] envC1 0 stC1).2.2
      (fun _ => ⟨"t1", rfl⟩)⟩

/-! ## C10: at most one detail fetch per fragment per run -/

theorem countDetail_nil (idv : JsVal) : countDetail idv [] = 0 := rfl

theorem countDetail_cons (idv : JsVal) (e : Ev) (tr : List Ev) :
    countDetail idv (e :: tr) =
      (if isDetailFor idv e then 1 else 0) + countDetail idv tr := by
  simp only [countDetail, List.filter_cons]
  split <;> simp [Nat.add_comm]

theorem isDetailFor_print (idv : JsVal) (s : String) : isDetailFor idv (Ev.print s) = false := rfl

theorem isDetailFor_dir (idv v : JsVal) : isDetailFor idv (Ev.dir v) = false := rfl

theorem isDetailFor_warn (idv : JsVal) (s : String) : isDetailFor idv (Ev.warn s) = false := rfl

theorem isDetailFor_getTok (idv : JsVal) : isDetailFor idv Ev.getTok = false := rfl

theorem isDetailFor_listReq (idv : JsVal) (tok : String) :
    isDetailFor idv (Ev.listReq tok) = false := rfl

theorem isDetailFor_detailReq (idv : JsVal) (tok : String) (x : JsVal) :
    isDetailFor idv (Ev.detailReq tok x) = decide (x = idv) := rfl

theorem countDetail_ite (idv : JsVal) (c : Prop) [Decidable c] (a b : List Ev) :
    countDetail idv (if c then a else b) =
      if c then countDetail idv a else countDetail idv b := by
  split <;> rfl

/-- The per-item loop of part_001 requests each fragment's detail at
most once, only for fragments outside the incoming seen set, and any
fragment whose detail was requested ends up in the outgoing seen set —
even when the request threw and aborted the loop, because the id is
marked seen before the fetch.  The outgoing seen set keeps everything
already in the incoming one. -/
theorem processItems001_count (env : PollEnv) (iter : Nat) (token : String) (idv : JsVal) :
    ∀ (items seen : List JsVal),
      (∀ x ∈ seen, x ∈ (processItems001 env iter token seen items).seen) ∧
      (idv ∈ seen → countDetail idv (processItems001 env iter token seen items).trace = 0) ∧
      countDetail idv (processItems001 env iter token seen items).trace ≤ 1 ∧
      (1 ≤ countDetail idv (processItems001 env iter token seen items).trace →
        idv ∈ (processItems001 env iter token seen items).seen) := by
  intro items
  induction items with
  | nil =>
    intro seen
    exact ⟨fun x hx => hx, fun _ => rfl, by simp [processItems001, countDetail],
      fun hcnt => absurd hcnt (by simp [processItems001, countDetail])⟩
  | cons t rest ih =>
    intro seen
    rcases h : itemId t with _ | x
    · simpa [processItems001, h] using ih seen
    · by_cases ht : jsTruthy x = false
      · simpa [processItems001, h, ht] using ih seen
      · by_cases hx : x ∈ seen
        · simpa [processItems001, h, ht, markIfNew, hx] using ih seen
        · rcases hd : env.detailO iter x with m | d
          · -- the detail fetch throws: the loop stops, but x is marked
            simp only [processItems001, h, ht, if_neg ht, markIfNew, if_neg hx, hd]
            refine ⟨fun y hy => List.mem_cons_of_mem _ hy, ?_, ?_, ?_⟩
            · intro hmem
              have hxy : x ≠ idv := fun he => hx (he ▸ hmem)
              simp [countDetail_append, countDetail_cons, countDetail_nil,
                countDetail_print_map, isDetailFor_print, isDetailFor_detailReq, hxy]
            · by_cases hxy : x = idv <;>
                simp [countDetail_append, countDetail_cons, countDetail_nil,
                  countDetail_print_map, isDetailFor_print, isDetailFor_detailReq, hxy]
            · intro hcnt
              by_cases hxy : x = idv
              · exact hxy ▸ List.mem_cons_self x seen
              · simp [countDetail_append, countDetail_cons, countDetail_nil,
                  countDetail_print_map, isDetailFor_print, isDetailFor_detailReq,
                  hxy] at hcnt
          · -- the detail fetch succeeded: recurse on the rest
            obtain ⟨ih1, ih2, ih3, ih4⟩ := ih (x :: seen)
            cases d <;>
            · simp only [processItems001, h, ht, if_neg ht, markIfNew, if_neg hx, hd]
              refine ⟨fun y hy => ih1 y (List.mem_cons_of_mem _ hy), ?_, ?_, ?_⟩
              · intro hmem
                have hxy : x ≠ idv := fun he => hx (he ▸ hmem)
                have hz := ih2 (List.mem_cons_of_mem _ hmem)
                by_cases hv : env.verbose = true <;>
                  simp [countDetail_append, countDetail_cons, countDetail_nil,
                    countDetail_print_map, countDetail_ite, isDetailFor_print,
                    isDetailFor_dir, isDetailFor_detailReq, hxy, hz, hv]
              · by_cases hxy : x = idv
                · subst hxy
                  have hz := ih2 (List.mem_cons_self _ _)
                  by_cases hv : env.verbose = true <;>
                    simp [countDetail_append, countDetail_cons, countDetail_nil,
                      countDetail_print_map, countDetail_ite, isDetailFor_print,
                      isDetailFor_dir, isDetailFor_detailReq, hz, hv]
                · have h3 := ih3
                  by_cases hv : env.verbose = true <;>
                    simp [countDetail_append, countDetail_cons, countDetail_nil,
                      countDetail_print_map, countDetail_ite, isDetailFor_print,
                      isDetailFor_dir, isDetailFor_detailReq, hxy, hv] <;>
                    omega
              · intro hcnt
                by_cases hxy : x = idv
                · subst hxy
                  exact ih1 x (List.mem_cons_self _ _)
                · by_cases hv : env.verbose = true <;>
                    simp [countDetail_append, countDetail_cons, countDetail_nil,
                      countDetail_print_map, countDetail_ite, isDetailFor_print,
                      isDetailFor_dir, isDetailFor_detailReq, hxy, hv] at hcnt <;>
                    exact ih4 (by omega)

theorem listAndProcess_count (env : PollEnv) (iter : Nat) (st1 : PollState) (tr1 : List Ev)
    (idv : JsVal) (htr1 : countDetail idv tr1 = 0) :
    (∀ x ∈ st1.seen, x ∈ (listAndProcess env iter st1 tr1).state.seen) ∧
    (idv ∈ st1.seen → countDetail idv (listAndProcess env iter st1 tr1).trace = 0) ∧
    countDetail idv (listAndProcess env iter st1 tr1).trace ≤ 1 ∧
    (1 ≤ countDetail idv (listAndProcess env iter st1 tr1).trace →
      idv ∈ (listAndProcess env iter st1 tr1).state.seen) := by
  rcases hlist : env.listO iter with m | d
  · simp only [listAndProcess, hlist]
    refine ⟨fun x hx => hx, fun _ => ?_, ?_, ?_⟩ <;>
      simp [countDetail_append, countDetail_cons, countDetail_nil, isDetailFor_listReq, htr1]
  · cases d with
    | empty s =>
      simp only [listAndProcess, hlist]
      refine ⟨fun x hx => hx, fun _ => ?_, ?_, ?_⟩ <;>
        simp [countDetail_append, countDetail_cons, countDetail_nil, countDetail_ite,
          isDetailFor_listReq, isDetailFor_print, htr1]
    | raw r s =>
      simp only [listAndProcess, hlist]
      refine ⟨fun x hx => hx, fun _ => ?_, ?_, ?_⟩ <;>
        simp [countDetail_append, countDetail_cons, countDetail_nil,
          isDetailFor_listReq, isDetailFor_print, htr1]
    | parsed j =>
      obtain ⟨p1, p2, p3, p4⟩ :=
        processItems001_count env iter st1.token idv (extractItems j) st1.seen
      simp only [listAndProcess, hlist]
      refine ⟨fun x hx => p1 x hx, ?_, ?_, ?_⟩
      · intro hmem
        simp [countDetail_append, countDetail_cons, countDetail_nil, countDetail_ite,
          isDetailFor_listReq, isDetailFor_print, isDetailFor_dir, htr1, p2 hmem]
      · simp only [countDetail_append, countDetail_cons, countDetail_nil, countDetail_ite,
          isDetailFor_listReq, isDetailFor_print, isDetailFor_dir, htr1]
        simp
        omega
      · intro hcnt
        simp only [countDetail_append, countDetail_cons, countDetail_nil, countDetail_ite,
          isDetailFor_listReq, isDetailFor_print, isDetailFor_dir, htr1] at hcnt
        simp at hcnt
        exact p4 (by omega)

theorem tryIteration_count (env : PollEnv) (iter : Nat) (st : PollState) (idv : JsVal) :
    (∀ x ∈ st.seen, x ∈ (tryIteration env iter st).state.seen) ∧
    (idv ∈ st.seen → countDetail idv (tryIteration env iter st).trace = 0) ∧
    countDetail idv (tryIteration env iter st).trace ≤ 1 ∧
    (1 ≤ countDetail idv (tryIteration env iter st).trace →
      idv ∈ (tryIteration env iter st).state.seen) := by
  unfold tryIteration
  by_cases hstale : env.nowO iter - st.tokenAcquiredAt > 50 * 60 * 1000
  · simp only [if_pos hstale]
    rcases hg : env.getTok st.tokenCalls with m | tok
    · refine ⟨fun x hx => hx, fun _ => ?_, ?_, ?_⟩ <;>
        simp [countDetail_cons, countDetail_nil, isDetailFor_getTok]
    · exact listAndProcess_count env iter
        ⟨tok, env.nowO iter, st.tokenCalls + 1, st.seen⟩ [Ev.getTok] idv
        (by simp [countDetail_cons, countDetail_nil, isDetailFor_getTok])
  · simp only [if_neg hstale]
    exact listAndProcess_count env iter st [] idv rfl

theorem runCatch_count (env : PollEnv) (iter : Nat) (st : PollState) (m : String)
    (idv : JsVal) : countDetail idv (runCatch env iter st m).1 = 0 := by
  unfold runCatch
  by_cases hc : strIncludes m "401"
  · rcases hg : env.getTok st.tokenCalls with e | tok <;>
      simp [hc, hg, countDetail_cons, countDetail_nil, isDetailFor_warn, isDetailFor_getTok]
  · simp only [Bool.not_eq_true] at hc
    simp [hc, countDetail_cons, countDetail_nil, isDetailFor_warn]

theorem runCatch_seen (env : PollEnv) (iter : Nat) (st : PollState) (m : String) :
    ∀ st', (runCatch env iter st m).2 = .ok st' → st'.seen = st.seen := by
  intro st' h
  unfold runCatch at h
  by_cases hc : strIncludes m "401"
  · rcases hg : env.getTok st.tokenCalls with e | tok
    · rw [hg] at h
      simp [hc] at h
    · rw [hg] at h
      simp [hc] at h
      rw [← h]
  · simp only [Bool.not_eq_true] at hc
    simp [hc] at h
    rw [← h]

theorem runIteration_count (env : PollEnv) (iter : Nat) (st : PollState) (idv : JsVal) :
    countDetail idv (runIteration env iter st).1 ≤ 1 ∧
    (idv ∈ st.seen → countDetail idv (runIteration env iter st).1 = 0) ∧
    (∀ st', (runIteration env iter st).2 = .ok st' →
      (∀ x ∈ st.seen, x ∈ st'.seen) ∧
      (1 ≤ countDetail idv (runIteration env iter st).1 → idv ∈ st'.seen)) := by
  obtain ⟨t1, t2, t3, t4⟩ := tryIteration_count env iter st idv
  rcases herr : (tryIteration env iter st).err with _ | m
  · simp only [runIteration, herr]
    refine ⟨t3, t2, ?_⟩
    intro st' h
    simp only [Except.ok.injEq] at h
    exact ⟨fun x hx => h ▸ t1 x hx, fun hc => h ▸ t4 hc⟩
  · simp only [runIteration, herr]
    have hcat := runCatch_count env iter (tryIteration env iter st).state m idv
    refine ⟨?_, ?_, ?_⟩
    · rw [countDetail_append, hcat]
      omega
    · intro hmem
      rw [countDetail_append, hcat, t2 hmem]
    · intro st' h
      have hseen := runCatch_seen env iter (tryIteration env iter st).state m st' h
      refine ⟨fun x hx => hseen ▸ t1 x hx, ?_⟩
      intro hc
      rw [countDetail_append, hcat] at hc
      exact hseen ▸ t4 (by omega)

theorem runLoop_count (env : PollEnv) (idv : JsVal) :
    ∀ (fuel iter : Nat) (st : PollState),
      countDetail idv (runLoop env iter st fuel).1 ≤ 1 ∧
      (idv ∈ st.seen → countDetail idv (runLoop env iter st fuel).1 = 0) := by
  intro fuel
  induction fuel with
  | zero => intro iter st; exact ⟨by simp [runLoop, countDetail_nil], fun _ => rfl⟩
  | succ fuel ihf =>
    intro iter st
    obtain ⟨r1, r2, r3⟩ := runIteration_count env iter st idv
    rcases hr : runIteration env iter st with ⟨tr, res⟩
    rw [hr] at r1 r2 r3
    simp only at r1 r2 r3
    cases res with
    | error m =>
      simp only [runLoop, hr]
      exact ⟨r1, r2⟩
    | ok st' =>
      obtain ⟨m1, m2⟩ := r3 st' rfl
      obtain ⟨l1, l2⟩ := ihf (iter + 1) st'
      simp only [runLoop, hr]
      constructor
      · rw [countDetail_append]
        by_cases hz : countDetail idv tr = 0
        · omega
        · have h1 : 1 ≤ countDetail idv tr := Nat.one_le_iff_ne_zero.mpr hz
          have h2 := l2 (m2 h1)
          omega
      · intro hmem
        rw [countDetail_append, r2 hmem, l2 (m1 idv hmem)]

/-- C10: every fragment identifier is inserted into the seen set before
its detail fetch is attempted — even a fetch that throws leaves the id
in the seen set of the aborted iteration — and a fragment already seen
is never detail-fetched; consequently over any number of iterations the
detail endpoint is called at most once per fragment identifier, whatever
each fetch returned (error, Empty, Raw or Parsed). -/
theorem seen_before_detail (env : PollEnv) (iter : Nat) (st : PollState) (idv : JsVal)
    (fuel : Nat) :
    (1 ≤ countDetail idv (tryIteration env iter st).trace →
      idv ∈ (tryIteration env iter st).state.seen) ∧
    (idv ∈ st.seen → countDetail idv (runLoop env iter st fuel).1 = 0) ∧
    countDetail idv (runLoop env iter st fuel).1 ≤ 1 :=
  ⟨(tryIteration_count env iter st idv).2.2.2,
    (runLoop_count env idv fuel iter st).2,
    (runLoop_count env idv fuel iter st).1⟩

def stC10 : PollState := ⟨"tok0", 0, 1, [.str "a"]⟩

theorem seen_before_detail_witness :
    (JsVal.str "a") ∈ (tryIteration envC1 0 stC1).state.seen ∧
    countDetail (.str "a") (runLoop envC1 0 stC10 2).1 = 0 :=
  ⟨(seen_before_detail envC1 0 stC1 (.str "a") 1).1 (by decide),
    (seen_before_detail envC1 0 stC10 (.str "a") 2).2.1 (by decide)⟩

end CopilotTrans
